import Mathlib

set_option maxRecDepth 100000

/-!
# Verification of the AiMo SDK SIWx core

Shallow embedding of the SIWx (Sign-In-With-X) message canonicalizer,
envelope codec, signer adapters and request-authentication fetch wrapper
of the AiMo SDK, together with proofs of the specification claims.

Sources embedded:
* `siwx.ts` — `SIWxPayload`, `getChainName`, `createSIWxMessage`,
  `encodeSIWxHeader`, `prepareSIWxForSigning`;
* `packages/evm/src/index.ts` — `EvmClientSigner.signPayload`;
* `packages/svm/src/index.ts` — `SvmClientSigner.signPayload`;
* `packages/client/src/fetch.ts` — `wrapFetchWithSigner`;
* `packages/client/src/api.ts` — `AimoClient.sessionBalance`,
  `AimoClient.chatCompletions`, `AimoClient.handleErrorResponse`.

JavaScript strings are modelled as Lean `String` (sequences of unicode
scalar values); machine specifics that matter (the latin-1 domain of
`btoa`, JS falsiness of the empty string, strict `>` comparison of dates)
are modelled explicitly.
-/

/-- The SIWx payload, from `siwx.ts` (`SIWxPayload`).  Optional TypeScript
fields become `Option`; `signature` is `Option String` so that the
"absent / present with any value" distinction of the TS callers
(`Omit<SIWxPayload, "signature"> | SIWxPayload`) is expressible. -/
structure SIWxPayload where
  domain : String
  address : String
  statement : Option String
  uri : String
  version : String
  chainId : String
  nonce : Option String
  issuedAt : Option String
  expirationTime : String
  notBefore : Option String
  requestId : Option String
  resources : Option (List String)
  signature : Option String
deriving DecidableEq, Repr

/-- JS `namespace.charAt(0).toUpperCase() + namespace.slice(1)` from
`getChainName` in `siwx.ts`, for the ASCII namespaces CAIP-2 allows. -/
def capitalizeJS (s : String) : String :=
  match s.data with
  | [] => ""
  | c :: cs => String.mk (c.toUpper :: cs)

/-- `getChainName` from `siwx.ts`: `eip155:`-prefixed ids map to
"Ethereum", `solana:`-prefixed ids to "Solana", anything else to the
capitalized text before the first `:` (JS `chainId.split(":")[0]`). -/
def getChainName (chainId : String) : String :=
  if "eip155:".data.isPrefixOf chainId.data then "Ethereum"
  else if "solana:".data.isPrefixOf chainId.data then "Solana"
  else capitalizeJS (String.mk (chainId.data.takeWhile (fun c => c ≠ ':')))

/-- Lines contributed by an optional string field of the payload.  JS
tests the field with `if (payload.field)`, so an *empty* string is as
absent as an omitted one. -/
def optLines (o : Option String) (f : String → List String) : List String :=
  match o with
  | none => []
  | some s => if s = "" then [] else f s

/-- Lines contributed by `resources`
(`payload.resources && payload.resources.length > 0` in `siwx.ts`). -/
def resourceLines (o : Option (List String)) : List String :=
  match o with
  | none => []
  | some rs => if rs.length > 0 then "Resources:" :: rs.map (fun r => "- " ++ r) else []

/-- The line list built by `createSIWxMessage` in `siwx.ts`, in source
order. -/
def siwxLines (p : SIWxPayload) : List String :=
  [p.domain ++ " wants you to sign in with your " ++ getChainName p.chainId ++ " account:",
   p.address,
   ""]
  ++ optLines p.statement (fun s => [s, ""])
  ++ ["URI: " ++ p.uri,
      "Version: " ++ p.version,
      "Chain ID: " ++ p.chainId]
  ++ optLines p.nonce (fun s => ["Nonce: " ++ s])
  ++ optLines p.issuedAt (fun s => ["Issued At: " ++ s])
  ++ ["Expiration Time: " ++ p.expirationTime]
  ++ optLines p.notBefore (fun s => ["Not Before: " ++ s])
  ++ optLines p.requestId (fun s => ["Request ID: " ++ s])
  ++ resourceLines p.resources

/-- JS `lines.join("\n")`. -/
def joinLines : List String → String
  | [] => ""
  | [l] => l
  | l :: ls => l ++ "\n" ++ joinLines ls

/-- `createSIWxMessage` from `siwx.ts`: the CAIP-122 canonical message. -/
def createSIWxMessage (p : SIWxPayload) : String :=
  joinLines (siwxLines p)

/-- The payload of claim C1: all optional fields absent. -/
def c1Payload : SIWxPayload :=
  ⟨"example.com", "0xABC", none, "https://example.com/r", "1", "eip155:1",
   none, none, "2030-01-01T00:00:00.000Z", none, none, none, none⟩

theorem string_data_append (s t : String) : (s ++ t).data = s.data ++ t.data := by
  cases s; cases t; rfl

theorem string_data_injective {s t : String} (h : s.data = t.data) : s = t := by
  cases s; cases t; exact congrArg String.mk h

theorem string_mk_data (s : String) : String.mk s.data = s := by
  cases s; rfl

/-- `takeWhile p` on `ns ++ d :: r` yields `ns` when `p` holds on `ns`
and fails at `d`. -/
theorem takeWhile_append_stop (p : Char → Bool) (ns : List Char) (d : Char) (r : List Char)
    (hall : ∀ c ∈ ns, p c = true) (hd : p d = false) :
    (ns ++ d :: r).takeWhile p = ns := by
  induction ns with
  | nil => simp [List.takeWhile_cons, hd]
  | cons c cs ih =>
      have hc := hall c (List.mem_cons_self c cs)
      have hcs : ∀ x ∈ cs, p x = true := fun x hx => hall x (List.mem_cons_of_mem c hx)
      simp [List.takeWhile_cons, hc, ih hcs]

/-- A list is a prefix of itself followed by anything (`Bool` form). -/
theorem isPrefixOf_append_self (a r : List Char) : a.isPrefixOf (a ++ r) = true := by
  induction a with
  | nil => simp
  | cons c cs ih => simp [List.isPrefixOf_cons₂, ih]

/-- Head mismatch kills `isPrefixOf`. -/
theorem isPrefixOf_cons_ne {a b : Char} (as bs : List Char) (h : a ≠ b) :
    (a :: as).isPrefixOf (b :: bs) = false := by
  have hb : (a == b) = false := by
    rw [beq_eq_false_iff_ne]; exact h
  simp [List.isPrefixOf_cons₂, hb]

/-- A colon-terminated literal is a prefix of `ns ++ ':' :: r` only when the
colon-free part matches `ns` exactly. -/
theorem colon_lit_not_isPrefixOf (p : List Char) :
    ∀ (ns r : List Char), ':' ∉ p → ':' ∉ ns → ns ≠ p →
      (p ++ [':']).isPrefixOf (ns ++ ':' :: r) = false := by
  induction p with
  | nil =>
      intro ns r _ hns hne
      cases ns with
      | nil => exact absurd rfl hne
      | cons d ns' =>
          have hd : d ≠ ':' := fun h => hns (h ▸ List.mem_cons_self d ns')
          have hd' : ((':' : Char) == d) = false := by
            rw [beq_eq_false_iff_ne]
            exact fun h => hd h.symm
          simp [List.isPrefixOf_cons₂, hd']
  | cons c p' ih =>
      intro ns r hp hns hne
      cases ns with
      | nil =>
          have hc : c ≠ ':' := fun h => hp (h ▸ List.mem_cons_self c p')
          have hc' : ((c : Char) == ':') = false := by
            rw [beq_eq_false_iff_ne]; exact hc
          simp [List.isPrefixOf_cons₂, hc']
      | cons d ns' =>
          by_cases hcd : c = d
          · subst hcd
            have hp' : ':' ∉ p' := fun hm => hp (List.mem_cons_of_mem c hm)
            have hns' : ':' ∉ ns' := fun hm => hns (List.mem_cons_of_mem c hm)
            have hne' : ns' ≠ p' := fun h => hne (by rw [h])
            simp [List.isPrefixOf_cons₂, ih ns' r hp' hns' hne']
          · have : ((c : Char) == d) = false := by
              rw [beq_eq_false_iff_ne]; exact hcd
            simp [List.isPrefixOf_cons₂, this]

/-- C1: `createSIWxMessage` on the payload
`(domain "example.com", address "0xABC", uri "https://example.com/r",
version "1", chainId "eip155:1",
expirationTime "2030-01-01T00:00:00.000Z")` with every optional field
absent returns exactly the six required lines (with the empty third
line) joined by `\n`, with no trailing newline. -/
theorem createSIWxMessage_required_fields_exact : createSIWxMessage c1Payload =
    "example.com wants you to sign in with your Ethereum account:\n0xABC\n\nURI: https://example.com/r\nVersion: 1\nChain ID: eip155:1\nExpiration Time: 2030-01-01T00:00:00.000Z" := by
  decide

/-- C6: `createSIWxMessage` is deterministic (a pure function applied twice
to the same payload yields the same string) and signature-blind (the
`signature` field — absent or set to anything — does not influence the
message). -/
theorem createSIWxMessage_deterministic_signature_blind :
    (∀ p : SIWxPayload, createSIWxMessage p = createSIWxMessage p) ∧
    (∀ (p : SIWxPayload) (s : Option String),
      createSIWxMessage { p with signature := s } = createSIWxMessage p) :=
  ⟨fun _ => rfl, fun _ _ => rfl⟩

/-- C7: with `statement`, `nonce`, `issuedAt`, `notBefore`, `requestId`
present (JS-truthy, i.e. non-empty) and `resources = [r1, r2]`, the message
lines appear in exactly the documented order: statement block plus empty
line, then URI/Version/Chain ID, then Nonce, Issued At, Expiration Time,
Not Before, Request ID, then the `Resources:` block listing `- r1` and
`- r2`; when `resources` is empty or absent the `Resources:` block is not
emitted. -/
theorem createSIWxMessage_optional_field_order
    (d a st u v c n ia e nb rid r1 r2 : String) (sig : Option String)
    (hst : st ≠ "") (hn : n ≠ "") (hia : ia ≠ "") (hnb : nb ≠ "") (hrid : rid ≠ "") :
    createSIWxMessage ⟨d, a, some st, u, v, c, some n, some ia, e, some nb, some rid, some [r1, r2], sig⟩
      = joinLines [d ++ " wants you to sign in with your " ++ getChainName c ++ " account:",
          a, "", st, "", "URI: " ++ u, "Version: " ++ v, "Chain ID: " ++ c,
          "Nonce: " ++ n, "Issued At: " ++ ia, "Expiration Time: " ++ e,
          "Not Before: " ++ nb, "Request ID: " ++ rid, "Resources:", "- " ++ r1, "- " ++ r2]
    ∧ createSIWxMessage ⟨d, a, some st, u, v, c, some n, some ia, e, some nb, some rid, some [], sig⟩
      = joinLines [d ++ " wants you to sign in with your " ++ getChainName c ++ " account:",
          a, "", st, "", "URI: " ++ u, "Version: " ++ v, "Chain ID: " ++ c,
          "Nonce: " ++ n, "Issued At: " ++ ia, "Expiration Time: " ++ e,
          "Not Before: " ++ nb, "Request ID: " ++ rid]
    ∧ createSIWxMessage ⟨d, a, some st, u, v, c, some n, some ia, e, some nb, some rid, none, sig⟩
      = joinLines [d ++ " wants you to sign in with your " ++ getChainName c ++ " account:",
          a, "", st, "", "URI: " ++ u, "Version: " ++ v, "Chain ID: " ++ c,
          "Nonce: " ++ n, "Issued At: " ++ ia, "Expiration Time: " ++ e,
          "Not Before: " ++ nb, "Request ID: " ++ rid] := by
  refine ⟨?_, ?_, ?_⟩ <;>
    simp [createSIWxMessage, siwxLines, optLines, resourceLines, hst, hn, hia, hnb, hrid]

theorem createSIWxMessage_optional_field_order_witness :
    (("st" : String) ≠ "" ∧ ("n" : String) ≠ "" ∧ ("ia" : String) ≠ ""
      ∧ ("nb" : String) ≠ "" ∧ ("rid" : String) ≠ "")
    ∧ createSIWxMessage ⟨"example.com", "0xABC", some "st", "u", "1", "eip155:1",
        some "n", some "ia", "e", some "nb", some "rid", some ["r1", "r2"], none⟩
      = joinLines ["example.com wants you to sign in with your " ++ getChainName "eip155:1" ++ " account:",
          "0xABC", "", "st", "", "URI: " ++ "u", "Version: " ++ "1", "Chain ID: " ++ "eip155:1",
          "Nonce: " ++ "n", "Issued At: " ++ "ia", "Expiration Time: " ++ "e",
          "Not Before: " ++ "nb", "Request ID: " ++ "rid", "Resources:", "- " ++ "r1", "- " ++ "r2"] :=
  ⟨by decide,
   (createSIWxMessage_optional_field_order "example.com" "0xABC" "st" "u" "1" "eip155:1"
      "n" "ia" "e" "nb" "rid" "r1" "r2" none
      (by decide) (by decide) (by decide) (by decide) (by decide)).1⟩

/-- C8: the chain-family name in line 1 is "Ethereum" for every
`eip155`-namespaced chain id, "Solana" for every `solana`-namespaced one,
and for any other namespace `ns` (the text before the first `:`) the
namespace with its first character upper-cased; in particular
`cosmos:foo` yields "Cosmos". -/
theorem getChainName_resolution :
    (∀ r : String, getChainName ("eip155:" ++ r) = "Ethereum")
    ∧ (∀ r : String, getChainName ("solana:" ++ r) = "Solana")
    ∧ (∀ ns r : String, ':' ∉ ns.data → ns ≠ "eip155" → ns ≠ "solana" →
        getChainName (ns ++ ":" ++ r) = capitalizeJS ns) := by
  refine ⟨?_, ?_, ?_⟩
  · intro r
    have h : "eip155:".data.isPrefixOf (("eip155:" ++ r).data) = true := by
      rw [string_data_append]; exact isPrefixOf_append_self _ _
    simp [getChainName, h]
  · intro r
    have d1 : "eip155:".data = ['e', 'i', 'p', '1', '5', '5', ':'] := by decide
    have d2 : "solana:".data = ['s', 'o', 'l', 'a', 'n', 'a', ':'] := by decide
    have h1 : "eip155:".data.isPrefixOf (("solana:" ++ r).data) = false := by
      rw [string_data_append, d1, d2]
      simp only [List.cons_append]
      exact isPrefixOf_cons_ne _ _ (by decide)
    have h2 : "solana:".data.isPrefixOf (("solana:" ++ r).data) = true := by
      rw [string_data_append]; exact isPrefixOf_append_self _ _
    simp [getChainName, h1, h2]
  · intro ns r hcol he hs
    have hdata : (ns ++ ":" ++ r).data = ns.data ++ ':' :: r.data := by
      rw [string_data_append, string_data_append]
      simp
    have he' : ns.data ≠ "eip155".data := fun h => he (string_data_injective h)
    have hs' : ns.data ≠ "solana".data := fun h => hs (string_data_injective h)
    have de : "eip155:".data = "eip155".data ++ [':'] := by decide
    have dsol : "solana:".data = "solana".data ++ [':'] := by decide
    have h1 : "eip155:".data.isPrefixOf ((ns ++ ":" ++ r).data) = false := by
      rw [hdata, de]
      exact colon_lit_not_isPrefixOf "eip155".data ns.data r.data (by decide) hcol he'
    have h2 : "solana:".data.isPrefixOf ((ns ++ ":" ++ r).data) = false := by
      rw [hdata, dsol]
      exact colon_lit_not_isPrefixOf "solana".data ns.data r.data (by decide) hcol hs'
    have h3 : ((ns ++ ":" ++ r).data).takeWhile (fun c => c ≠ ':') = ns.data := by
      rw [hdata]
      refine takeWhile_append_stop _ ns.data ':' r.data ?_ (by decide)
      intro c hcm
      have hcne : c ≠ ':' := fun heq => hcol (heq ▸ hcm)
      simpa using hcne
    have trans1 : getChainName (ns ++ ":" ++ r)
        = capitalizeJS (String.mk (((ns ++ ":" ++ r).data).takeWhile (fun c => c ≠ ':'))) := by
      unfold getChainName
      rw [h1, h2]
      simp
    rw [trans1, h3, string_mk_data]

theorem getChainName_resolution_witness :
    (':' ∉ "cosmos".data ∧ ("cosmos" : String) ≠ "eip155" ∧ ("cosmos" : String) ≠ "solana")
    ∧ getChainName ("cosmos" ++ ":" ++ "foo") = capitalizeJS "cosmos" :=
  ⟨by decide,
   getChainName_resolution.2.2 "cosmos" "foo" (by decide) (by decide) (by decide)⟩

example : capitalizeJS "cosmos" = "Cosmos" := by decide
example : getChainName "cosmos:foo" = "Cosmos" := by decide

/-! ## Envelope codec

`encodeSIWxHeader` in `siwx.ts` is `btoa(JSON.stringify({ message, signature }))`.
We embed JS `JSON.stringify` string quoting, `btoa` (which is partial: it
throws on code points above `0xFF`), and — since the repository contains no
decoder (its tests inline `JSON.parse(atob(token))`) — a decoder modelled
from the spec. -/

/-- Lower-case hex digit, as produced by `JSON.stringify` `\u00XX` escapes. -/
def toHexDigit (n : Nat) : Char :=
  if n < 10 then Char.ofNat (48 + n) else Char.ofNat (87 + n)

/-- Value of a hex digit (JSON escape digits are case-insensitive). -/
def hexDigitVal (c : Char) : Option Nat :=
  if '0' ≤ c ∧ c ≤ '9' then some (c.toNat - 48)
  else if 'a' ≤ c ∧ c ≤ 'f' then some (c.toNat - 87)
  else if 'A' ≤ c ∧ c ≤ 'F' then some (c.toNat - 55)
  else none

/-- JS `JSON.stringify` quoting of one character: `"` and `\` are
backslash-escaped, the named control characters get short escapes, other
control characters below `0x20` get `\u00XX`, everything else is copied. -/
def jsonQuoteChar (c : Char) : List Char :=
  if c = '"' then ['\\', '"']
  else if c = '\\' then ['\\', '\\']
  else if c = '\x08' then ['\\', 'b']
  else if c = '\t' then ['\\', 't']
  else if c = '\n' then ['\\', 'n']
  else if c = '\x0c' then ['\\', 'f']
  else if c = '\r' then ['\\', 'r']
  else if c.toNat < 32 then ['\\', 'u', '0', '0', toHexDigit (c.toNat / 16), toHexDigit (c.toNat % 16)]
  else [c]

/-- `jsonQuoteChar` mapped over a character list. -/
def escList : List Char → List Char
  | [] => []
  | c :: cs => jsonQuoteChar c ++ escList cs

/-- JS `JSON.stringify` of a string value. -/
def jsonQuote (s : String) : String :=
  String.mk ('"' :: escList s.data ++ ['"'])

/-- `JSON.stringify({ message, signature })`: insertion order puts
`message` first, then `signature`. -/
def jsonStringifyEnvelope (message signature : String) : String :=
  "\x7b\"message\":" ++ jsonQuote message ++ ",\"signature\":" ++ jsonQuote signature ++ "\x7d"

/-- The base64 standard alphabet. -/
def base64Alphabet : List Char :=
  "ABCDEFGHIJKLMNOPQRSTUVWXYZabcdefghijklmnopqrstuvwxyz0123456789+/".data

/-- Sextet to base64 character. -/
def b64char (n : Nat) : Char := base64Alphabet.getD n 'A'

/-- Base64 character back to its sextet. -/
def b64inv (c : Char) : Option Nat := base64Alphabet.findIdx? (fun x => x = c)

/-- Standard base64 of a byte sequence, with `=` padding. -/
def base64Encode : List Nat → List Char
  | [] => []
  | [b1] => [b64char (b1 / 4), b64char (b1 % 4 * 16), '=', '=']
  | [b1, b2] => [b64char (b1 / 4), b64char (b1 % 4 * 16 + b2 / 16), b64char (b2 % 16 * 4), '=']
  | b1 :: b2 :: b3 :: rest =>
      b64char (b1 / 4) :: b64char (b1 % 4 * 16 + b2 / 16)
        :: b64char (b2 % 16 * 4 + b3 / 64) :: b64char (b3 % 64) :: base64Encode rest

/-- Base64 decoding (used only by the spec-modelled decoder). -/
def base64Decode : List Char → Option (List Nat)
  | [] => some []
  | c1 :: c2 :: c3 :: c4 :: rest =>
      if c3 = '=' ∧ c4 = '=' ∧ rest = [] then do
        let n1 ← b64inv c1
        let n2 ← b64inv c2
        if n2 % 16 = 0 then some [n1 * 4 + n2 / 16] else none
      else if c4 = '=' ∧ rest = [] then do
        let n1 ← b64inv c1
        let n2 ← b64inv c2
        let n3 ← b64inv c3
        if n3 % 4 = 0 then some [n1 * 4 + n2 / 16, n2 % 16 * 16 + n3 / 4] else none
      else do
        let n1 ← b64inv c1
        let n2 ← b64inv c2
        let n3 ← b64inv c3
        let n4 ← b64inv c4
        let tail ← base64Decode rest
        some ((n1 * 4 + n2 / 16) :: (n2 % 16 * 16 + n3 / 4) :: (n3 % 4 * 64 + n4) :: tail)
  | _ => none

/-- JS `btoa`: base64 of a latin-1 string; throws (`none`) on any code
point above `0xFF`. -/
def btoaJS (s : String) : Option String :=
  if s.data.all (fun c => c.toNat < 256) then
    some (String.mk (base64Encode (s.data.map Char.toNat)))
  else none

/-- JS `atob`: inverse of `btoaJS`. -/
def atobJS (s : String) : Option String :=
  (base64Decode s.data).map (fun bs => String.mk (bs.map Char.ofNat))

/-- `encodeSIWxHeader` from `siwx.ts`:
`btoa(JSON.stringify({ message, signature }))`; `none` models the
`InvalidCharacterError` `btoa` throws on non-latin-1 input. -/
def encodeSIWxHeader (message signature : String) : Option String :=
  btoaJS (jsonStringifyEnvelope message signature)

/-- `prepareSIWxForSigning` from `siwx.ts`: the canonical message plus a
closure producing the header from a signature. -/
def prepareSIWxForSigning (p : SIWxPayload) : String × (String → Option String) :=
  (createSIWxMessage p, fun signature => encodeSIWxHeader (createSIWxMessage p) signature)

example : encodeSIWxHeader "test" "sig" = some "eyJtZXNzYWdlIjoidGVzdCIsInNpZ25hdHVyZSI6InNpZyJ9" := by
  decide

example : encodeSIWxHeader "a\"b\\c\nd" "" = some "eyJtZXNzYWdlIjoiYVwiYlxcY1xuZCIsInNpZ25hdHVyZSI6IiJ9" := by
  decide

example : encodeSIWxHeader "Ā" "x" = none := by decide

/-- JSON escape-sequence parser (after the backslash). -/
def parseEscape : List Char → Option (Char × List Char)
  | [] => none
  | 'u' :: h1 :: h2 :: h3 :: h4 :: rest => do
      let v1 ← hexDigitVal h1
      let v2 ← hexDigitVal h2
      let v3 ← hexDigitVal h3
      let v4 ← hexDigitVal h4
      let v := v1 * 4096 + v2 * 256 + v3 * 16 + v4
      if 0xD800 ≤ v ∧ v < 0xE000 then none else some (Char.ofNat v, rest)
  | c :: rest =>
      if c = '"' then some ('"', rest)
      else if c = '\\' then some ('\\', rest)
      else if c = '/' then some ('/', rest)
      else if c = 'b' then some ('\x08', rest)
      else if c = 't' then some ('\t', rest)
      else if c = 'n' then some ('\n', rest)
      else if c = 'f' then some ('\x0c', rest)
      else if c = 'r' then some ('\r', rest)
      else none

/-- JSON string-literal body parser (after the opening quote), fuelled so
that it is structurally recursive and kernel-evaluable. -/
def parseStringBody : Nat → List Char → Option (List Char × List Char)
  | 0, _ => none
  | _ + 1, [] => none
  | fuel + 1, c :: rest =>
      if c = '"' then some ([], rest)
      else if c = '\\' then do
        let (e, rest') ← parseEscape rest
        let (cs, r) ← parseStringBody fuel rest'
        some (e :: cs, r)
      else if c.toNat < 32 then none
      else do
        let (cs, r) ← parseStringBody fuel rest
        some (c :: cs, r)

/-- JSON string literal parser (quote to quote). -/
def parseJsonStringLit (l : List Char) : Option (String × List Char) :=
  match l with
  | c :: rest =>
      if c = '"' then (parseStringBody (rest.length + 1) rest).map (fun p => (String.mk p.1, p.2))
      else none
  | [] => none

/-- Consume an exact literal. -/
def dropLit : List Char → List Char → Option (List Char)
  | [], l => some l
  | _ :: _, [] => none
  | c :: cs, d :: l => if c = d then dropLit cs l else none

/-- Parse the serialized envelope object
`{"message": <string>, "signature": <string>}` (the exact shape
`JSON.stringify` emits for the envelope). -/
def parseEnvelope (s : String) : Option (String × String) := do
  let l1 ← dropLit "\x7b\"message\":".data s.data
  let (m, l2) ← parseJsonStringLit l1
  let l3 ← dropLit ",\"signature\":".data l2
  let (sig, l4) ← parseJsonStringLit l3
  let l5 ← dropLit "\x7d".data l4
  if l5 = [] then some (m, sig) else none

/-- The decode failure of 4.2 of the spec. -/
inductive SIWxDecodeError where
  | malformedEnvelope
deriving DecidableEq, Repr

/-- Modelled from the spec: the repository ships no envelope decoder (its
tests inline `JSON.parse(atob(token))`), so `decode` is modelled from
4.2 of the spec: base64-decode the token, parse the decoded text as the
serialized `{message, signature}` envelope, and fail with
`MalformedEnvelope` when the token is not valid base64 or its content is
not the valid JSON envelope. -/
def decodeSIWxHeader (token : String) : Except SIWxDecodeError (String × String) :=
  match atobJS token with
  | none => .error .malformedEnvelope
  | some s =>
      match parseEnvelope s with
      | none => .error .malformedEnvelope
      | some p => .ok p

example : decodeSIWxHeader "eyJtZXNzYWdlIjoidGVzdCIsInNpZ25hdHVyZSI6InNpZyJ9" = .ok ("test", "sig") := rfl

example : decodeSIWxHeader "eyJtZXNzYWdlIjoiYVwiYlxcY1xuZCIsInNpZ25hdHVyZSI6IiJ9" = .ok ("a\"b\\c\nd", "") := rfl

example : decodeSIWxHeader "!!!!" = .error .malformedEnvelope := rfl

example : decodeSIWxHeader "bm90IGpzb24=" = .error .malformedEnvelope := rfl

/-! ### Round-trip of the envelope codec -/

theorem b64inv_b64char_all : ∀ n, n < 64 → b64inv (b64char n) = some n := by decide

theorem b64char_ne_eq : ∀ n, n < 64 → b64char n ≠ '=' := by decide

theorem b64inv_b64char {n : Nat} (h : n < 64) : b64inv (b64char n) = some n :=
  b64inv_b64char_all n h

/-- Decoding inverts encoding on byte lists. -/
theorem base64Decode_base64Encode :
    ∀ (bs : List Nat), (∀ b ∈ bs, b < 256) → base64Decode (base64Encode bs) = some bs := by
  intro bs
  induction bs using base64Encode.induct with
  | case1 =>
      intro _
      rfl
  | case2 b1 =>
      intro h
      have hb1 : b1 < 256 := h b1 (by simp)
      have h1 : b1 / 4 < 64 := by omega
      have h2 : b1 % 4 * 16 < 64 := by omega
      have h3 : b1 % 4 * 16 % 16 = 0 := by omega
      simp [base64Encode, base64Decode, b64inv_b64char h1, b64inv_b64char h2, h3]
      omega
  | case3 b1 b2 =>
      intro h
      have hb1 : b1 < 256 := h b1 (by simp)
      have hb2 : b2 < 256 := h b2 (by simp)
      have h1 : b1 / 4 < 64 := by omega
      have h2 : b1 % 4 * 16 + b2 / 16 < 64 := by omega
      have h3 : b2 % 16 * 4 < 64 := by omega
      have hne : b64char (b2 % 16 * 4) ≠ '=' := b64char_ne_eq _ h3
      have h4 : (b1 % 4 * 16 + b2 / 16) % 16 * 16 + b2 % 16 * 4 / 4 = b2 := by omega
      have h5 : b2 % 16 * 4 % 4 = 0 := by omega
      simp [base64Encode, base64Decode, hne, b64inv_b64char h1, b64inv_b64char h2,
            b64inv_b64char h3, h4, h5]
      omega
  | case4 b1 b2 b3 rest ih =>
      intro h
      have hb1 : b1 < 256 := h b1 (by simp)
      have hb2 : b2 < 256 := h b2 (by simp)
      have hb3 : b3 < 256 := h b3 (by simp)
      have hrest : ∀ b ∈ rest, b < 256 := fun b hb => h b (by simp [hb])
      have h1 : b1 / 4 < 64 := by omega
      have h2 : b1 % 4 * 16 + b2 / 16 < 64 := by omega
      have h3 : b2 % 16 * 4 + b3 / 64 < 64 := by omega
      have h4 : b3 % 64 < 64 := by omega
      have hne3 : b64char (b2 % 16 * 4 + b3 / 64) ≠ '=' := b64char_ne_eq _ h3
      have hne4 : b64char (b3 % 64) ≠ '=' := b64char_ne_eq _ h4
      simp [base64Encode, base64Decode, hne3, hne4, b64inv_b64char h1, b64inv_b64char h2,
            b64inv_b64char h3, b64inv_b64char h4, ih hrest]
      omega

/-- `atob` inverts `btoa` on latin-1 strings. -/
theorem atobJS_btoaJS (s : String) (h : ∀ c ∈ s.data, c.toNat < 256) :
    btoaJS s = some (String.mk (base64Encode (s.data.map Char.toNat)))
    ∧ atobJS (String.mk (base64Encode (s.data.map Char.toNat))) = some s := by
  constructor
  · simp [btoaJS, List.all_eq_true]
    exact h
  · have hbytes : ∀ b ∈ s.data.map Char.toNat, b < 256 := by
      intro b hb
      rcases List.mem_map.1 hb with ⟨c, hc, rfl⟩
      exact h c hc
    simp [atobJS, base64Decode_base64Encode _ hbytes, List.map_map]
    have : (fun c => Char.ofNat c.toNat) = (id : Char → Char) := by
      funext c
      simp
    rw [Function.comp_def]
    simp [string_mk_data]

theorem hexVal_toHexDigit : ∀ n, n < 16 → hexDigitVal (toHexDigit n) = some n := by decide

/-- One quoted character parses back, continuing with the rest. -/
theorem parseStringBody_quoteChar (c : Char) (f : Nat) (l : List Char) :
    parseStringBody (f + 1) (jsonQuoteChar c ++ l)
      = (parseStringBody f l).map (fun p => (c :: p.1, p.2)) := by
  by_cases h1 : c = '"'
  · subst h1
    simp [jsonQuoteChar, parseStringBody, parseEscape]
    cases parseStringBody f l <;> rfl
  · by_cases h2 : c = '\\'
    · subst h2
      simp [jsonQuoteChar, parseStringBody, parseEscape]
      cases parseStringBody f l <;> rfl
    · by_cases h3 : c = '\x08'
      · subst h3
        simp [jsonQuoteChar, parseStringBody, parseEscape]
        cases parseStringBody f l <;> rfl
      · by_cases h4 : c = '\t'
        · subst h4
          simp [jsonQuoteChar, parseStringBody, parseEscape]
          cases parseStringBody f l <;> rfl
        · by_cases h5 : c = '\n'
          · subst h5
            simp [jsonQuoteChar, parseStringBody, parseEscape]
            cases parseStringBody f l <;> rfl
          · by_cases h6 : c = '\x0c'
            · subst h6
              simp [jsonQuoteChar, parseStringBody, parseEscape]
              cases parseStringBody f l <;> rfl
            · by_cases h7 : c = '\r'
              · subst h7
                simp [jsonQuoteChar, parseStringBody, parseEscape]
                cases parseStringBody f l <;> rfl
              · by_cases h8 : c.toNat < 32
                · have h00 : hexDigitVal '0' = some 0 := rfl
                  have hdiv : c.toNat / 16 < 16 := by omega
                  have hmod : c.toNat % 16 < 16 := by omega
                  have hvd := hexVal_toHexDigit _ hdiv
                  have hvm := hexVal_toHexDigit _ hmod
                  have hval : c.toNat / 16 * 16 + c.toNat % 16 = c.toNat := by omega
                  have hsur : ¬(55296 ≤ c.toNat ∧ c.toNat < 57344) := by omega
                  simp [jsonQuoteChar, h1, h2, h3, h4, h5, h6, h7, h8,
                        parseStringBody, parseEscape, h00, hvd, hvm, hval, hsur]
                  cases parseStringBody f l <;> rfl
                · simp [jsonQuoteChar, h1, h2, h3, h4, h5, h6, h7, h8, parseStringBody]
                  cases parseStringBody f l <;> rfl

/-- Escaped text followed by the closing quote parses back exactly. -/
theorem parseStringBody_escList :
    ∀ (cs : List Char) (fuel : Nat) (rest : List Char), cs.length + 1 ≤ fuel →
      parseStringBody fuel (escList cs ++ '"' :: rest) = some (cs, rest) := by
  intro cs
  induction cs with
  | nil =>
      intro fuel rest hf
      match fuel, hf with
      | f + 1, _ => simp [escList, parseStringBody]
  | cons c cs' ih =>
      intro fuel rest hf
      match fuel, hf with
      | f + 1, hf =>
          have hf' : cs'.length + 1 ≤ f := by
            simp [List.length_cons] at hf
            omega
          rw [escList, List.append_assoc, parseStringBody_quoteChar, ih f rest hf']
          rfl

theorem string_data_mk (l : List Char) : (String.mk l).data = l := rfl

theorem jsonQuoteChar_length_pos (c : Char) : 1 ≤ (jsonQuoteChar c).length := by
  unfold jsonQuoteChar
  split_ifs <;> simp

theorem escList_length_ge (cs : List Char) : cs.length ≤ (escList cs).length := by
  induction cs with
  | nil => simp [escList]
  | cons c cs' ih =>
      have := jsonQuoteChar_length_pos c
      simp [escList, List.length_append]
      omega

theorem dropLit_self (a : List Char) : ∀ l, dropLit a (a ++ l) = some l := by
  induction a with
  | nil => intro l; rfl
  | cons c cs ih => intro l; simp [dropLit, ih]

/-- A quoted escaped string literal parses back to the original text. -/
theorem parseJsonStringLit_quote (cs rest : List Char) :
    parseJsonStringLit ('"' :: (escList cs ++ '"' :: rest)) = some (String.mk cs, rest) := by
  simp only [parseJsonStringLit, if_pos]
  rw [parseStringBody_escList cs _ rest (by
    have := escList_length_ge cs
    simp [List.length_append]
    omega)]
  rfl

/-- The serialized envelope parses back to its two fields. -/
theorem parseEnvelope_stringify (m s : String) :
    parseEnvelope (jsonStringifyEnvelope m s) = some (m, s) := by
  have hdata : (jsonStringifyEnvelope m s).data
      = "\x7b\"message\":".data
          ++ ('"' :: (escList m.data ++ '"' ::
            (",\"signature\":".data ++ ('"' :: (escList s.data ++ '"' :: ['\x7d']))))) := by
    simp [jsonStringifyEnvelope, string_data_append, jsonQuote, string_data_mk,
          List.append_assoc]
  simp [parseEnvelope, hdata, dropLit, parseJsonStringLit_quote, string_mk_data]

/-- `jsonQuoteChar` maps latin-1 characters to latin-1 characters. -/
theorem jsonQuoteChar_latin1 {c : Char} (h : c.toNat < 256) :
    ∀ d ∈ jsonQuoteChar c, d.toNat < 256 := by
  have hhex : ∀ n, n < 16 → (toHexDigit n).toNat < 256 := by decide
  intro d hd
  unfold jsonQuoteChar at hd
  split_ifs at hd with h1 h2 h3 h4 h5 h6 h7 h8
  · simp at hd; rcases hd with rfl | rfl <;> decide
  · simp at hd; subst hd; decide
  · simp at hd; rcases hd with rfl | rfl <;> decide
  · simp at hd; rcases hd with rfl | rfl <;> decide
  · simp at hd; rcases hd with rfl | rfl <;> decide
  · simp at hd; rcases hd with rfl | rfl <;> decide
  · simp at hd; rcases hd with rfl | rfl <;> decide
  · simp at hd
    rcases hd with rfl | rfl | rfl | rfl | rfl
    · decide
    · decide
    · decide
    · exact hhex _ (by omega)
    · exact hhex _ (by omega)
  · simp at hd
    subst hd
    exact h

/-- `escList` maps latin-1 text to latin-1 text. -/
theorem escList_latin1 (cs : List Char) (h : ∀ c ∈ cs, c.toNat < 256) :
    ∀ d ∈ escList cs, d.toNat < 256 := by
  induction cs with
  | nil => intro d hd; simp [escList] at hd
  | cons c cs' ih =>
      intro d hd
      rw [escList] at hd
      rcases List.mem_append.1 hd with h1 | h2
      · exact jsonQuoteChar_latin1 (h c (List.mem_cons_self c cs')) d h1
      · exact ih (fun x hx => h x (List.mem_cons_of_mem c hx)) d h2

/-- The character-list shape of the serialized envelope. -/
theorem jsonStringifyEnvelope_data (m s : String) :
    (jsonStringifyEnvelope m s).data
      = "\x7b\"message\":".data ++ ('"' :: (escList m.data ++ '"' ::
          (",\"signature\":".data ++ ('"' :: (escList s.data ++ '"' :: ['\x7d']))))) := by
  simp [jsonStringifyEnvelope, string_data_append, jsonQuote, string_data_mk, List.append_assoc]

/-- The serialized envelope of latin-1 fields is latin-1. -/
theorem jsonStringifyEnvelope_latin1 (m s : String)
    (hm : ∀ c ∈ m.data, c.toNat < 256) (hs : ∀ c ∈ s.data, c.toNat < 256) :
    ∀ c ∈ (jsonStringifyEnvelope m s).data, c.toNat < 256 := by
  intro c hc
  rw [jsonStringifyEnvelope_data] at hc
  have hlit1 : ∀ x ∈ "\x7b\"message\":".data, x.toNat < 256 := by decide
  have hlit2 : ∀ x ∈ ",\"signature\":".data, x.toNat < 256 := by decide
  rcases List.mem_append.1 hc with h | h
  · exact hlit1 c h
  rcases List.mem_cons.1 h with rfl | h
  · decide
  rcases List.mem_append.1 h with h | h
  · exact escList_latin1 m.data hm c h
  rcases List.mem_cons.1 h with rfl | h
  · decide
  rcases List.mem_append.1 h with h | h
  · exact hlit2 c h
  rcases List.mem_cons.1 h with rfl | h
  · decide
  rcases List.mem_append.1 h with h | h
  · exact escList_latin1 s.data hs c h
  rcases List.mem_cons.1 h with rfl | h
  · decide
  · simp at h
    subst h
    decide

/-- C3 counterexample: `encodeSIWxHeader` is not total on all string
pairs — on the message `"Ā"` (code point `0x100`) `btoa` throws
(modelled as `none`), so no token is produced at all, refuting the
claim for this pair. -/
theorem encodeSIWxHeader_roundtrip_counterexample :
    encodeSIWxHeader "Ā" "x" = none := by decide

/-- C3 (amended): for every pair of latin-1 strings (the domain on which
`btoa` does not throw), decoding the token produced by
`encodeSIWxHeader` yields exactly the original pair; and decoding a
token that is not valid base64, or whose base64-decoded content is not
the valid JSON envelope, fails with a `MalformedEnvelope` error. -/
theorem encodeSIWxHeader_roundtrip :
    (∀ m s : String, (∀ c ∈ m.data, c.toNat < 256) → (∀ c ∈ s.data, c.toNat < 256) →
      ∃ t, encodeSIWxHeader m s = some t ∧ decodeSIWxHeader t = .ok (m, s))
    ∧ (∀ t : String, base64Decode t.data = none →
        decodeSIWxHeader t = .error .malformedEnvelope)
    ∧ (∀ t u : String, atobJS t = some u → parseEnvelope u = none →
        decodeSIWxHeader t = .error .malformedEnvelope) := by
  refine ⟨?_, ?_, ?_⟩
  · intro m s hm hs
    have hj := jsonStringifyEnvelope_latin1 m s hm hs
    obtain ⟨henc, hdec⟩ := atobJS_btoaJS (jsonStringifyEnvelope m s) hj
    refine ⟨_, henc, ?_⟩
    unfold decodeSIWxHeader
    rw [hdec]
    simp [parseEnvelope_stringify]
  · intro t h
    unfold decodeSIWxHeader atobJS
    rw [h]
    rfl
  · intro t u h1 h2
    unfold decodeSIWxHeader
    rw [h1]
    simp [h2]

theorem encodeSIWxHeader_roundtrip_witness :
    (∀ c ∈ ("test" : String).data, c.toNat < 256)
    ∧ (∀ c ∈ ("sig" : String).data, c.toNat < 256)
    ∧ ∃ t, encodeSIWxHeader "test" "sig" = some t
        ∧ decodeSIWxHeader t = .ok ("test", "sig") :=
  ⟨by decide, by decide, encodeSIWxHeader_roundtrip.1 "test" "sig" (by decide) (by decide)⟩

/-! ## Signer adapters

`EvmClientSigner.signPayload` (packages/evm) and
`SvmClientSigner.signPayload` (packages/svm).  The underlying wallet
primitive is modelled as a pure function from the message text to the
chain-native signature string (hex for EVM `signMessage`, base58-encoded
`signMessages` output for SVM). -/

/-- `EvmClientSigner.signPayload`: fill `chainId` with the configured
default when falsy, canonicalize via `prepareSIWxForSigning`, sign with
EIP-191 `personal_sign`, and return the signature string alone. -/
def evmSignPayload (signMessage : String → String) (defaultChainId : String)
    (p : SIWxPayload) : String :=
  let payloadWithChain := { p with chainId := if p.chainId = "" then defaultChainId else p.chainId }
  let message := (prepareSIWxForSigning payloadWithChain).1
  signMessage message

/-- `SvmClientSigner.signPayload`: fill `chainId` with the configured
default when falsy, canonicalize, sign, base58-encode — and then return
`btoa(JSON.stringify({ message, signature }))`, i.e. the *envelope*,
not the signature string. -/
def svmSignPayload (signAndB58 : String → String) (defaultChainId : String)
    (p : SIWxPayload) : Option String :=
  let payloadWithChain := { p with chainId := if p.chainId = "" then defaultChainId else p.chainId }
  let message := createSIWxMessage payloadWithChain
  let signature := signAndB58 message
  btoaJS (jsonStringifyEnvelope message signature)

theorem b64char_latin1 (n : Nat) : (b64char n).toNat < 256 := by
  have halpha : ∀ c ∈ base64Alphabet, c.toNat < 256 := by decide
  unfold b64char
  rw [List.getD_eq_getElem?_getD]
  cases h : base64Alphabet[n]? with
  | none => decide
  | some x => simpa using halpha x (List.getElem?_mem h)

/-- Base64 text is latin-1 (indeed ASCII). -/
theorem base64Encode_latin1 : ∀ bs, ∀ c ∈ base64Encode bs, c.toNat < 256 := by
  intro bs
  induction bs using base64Encode.induct with
  | case1 => intro c hc; simp [base64Encode] at hc
  | case2 b1 =>
      intro c hc
      simp [base64Encode] at hc
      rcases hc with rfl | rfl | rfl
      · exact b64char_latin1 _
      · exact b64char_latin1 _
      · decide
  | case3 b1 b2 =>
      intro c hc
      simp [base64Encode] at hc
      rcases hc with rfl | rfl | rfl | rfl
      · exact b64char_latin1 _
      · exact b64char_latin1 _
      · exact b64char_latin1 _
      · decide
  | case4 b1 b2 b3 rest ih =>
      intro c hc
      simp [base64Encode] at hc
      rcases hc with rfl | rfl | rfl | rfl | hc
      · exact b64char_latin1 _
      · exact b64char_latin1 _
      · exact b64char_latin1 _
      · exact b64char_latin1 _
      · exact ih c hc

/-- The payload used for the C2 code-bug evaluation: a concrete Solana
payload (signature field present, as `SvmClientSigner.signPayload`
receives it). -/
def c2Payload : SIWxPayload :=
  ⟨"example.com", "SoLAddr1111", none, "https://example.com/r", "1", "solana:mainnet",
   none, none, "2030-01-01T00:00:00.000Z", none, none, none, some ""⟩

/-- C2 (code bug): the EVM variant returns the signature string alone as
claimed, but the SVM variant returns the base64 envelope
`btoa(JSON.stringify({message, signature}))` instead of the signature:
on a concrete payload and a signer producing `"SIGBASE58"`, its result
`E` differs from `"SIGBASE58"` and itself decodes as an envelope; the
fetch wrapper then treats `E` as the signature, so the emitted header
decodes to `(M, E)`, not to `(M, "SIGBASE58")`. -/
theorem svmSignPayload_returns_envelope :
    evmSignPayload (fun _ => "0xSIG") "eip155:1" c1Payload = "0xSIG"
    ∧ ∃ E H : String,
        svmSignPayload (fun _ => "SIGBASE58") "solana:mainnet" c2Payload = some E
        ∧ E ≠ "SIGBASE58"
        ∧ decodeSIWxHeader E = .ok (createSIWxMessage c2Payload, "SIGBASE58")
        ∧ encodeSIWxHeader (createSIWxMessage c2Payload) E = some H
        ∧ decodeSIWxHeader H = .ok (createSIWxMessage c2Payload, E) := by
  constructor
  · rfl
  · have hM : ∀ c ∈ (createSIWxMessage c2Payload).data, c.toNat < 256 := by decide
    have hsig : ∀ c ∈ ("SIGBASE58" : String).data, c.toNat < 256 := by decide
    have hJ := jsonStringifyEnvelope_latin1 (createSIWxMessage c2Payload) "SIGBASE58" hM hsig
    obtain ⟨henc, hdec⟩ := atobJS_btoaJS (jsonStringifyEnvelope (createSIWxMessage c2Payload) "SIGBASE58") hJ
    refine ⟨String.mk (base64Encode ((jsonStringifyEnvelope (createSIWxMessage c2Payload) "SIGBASE58").data.map Char.toNat)), ?_⟩
    have hE1 : ∀ c ∈ (String.mk (base64Encode ((jsonStringifyEnvelope (createSIWxMessage c2Payload) "SIGBASE58").data.map Char.toNat))).data, c.toNat < 256 := by
      rw [string_data_mk]
      exact fun c hc => base64Encode_latin1 _ c hc
    have hJ2 := jsonStringifyEnvelope_latin1 (createSIWxMessage c2Payload) _ hM hE1
    obtain ⟨henc2, hdec2⟩ := atobJS_btoaJS (jsonStringifyEnvelope (createSIWxMessage c2Payload) (String.mk (base64Encode ((jsonStringifyEnvelope (createSIWxMessage c2Payload) "SIGBASE58").data.map Char.toNat)))) hJ2
    refine ⟨_, henc, ?_, ?_, henc2, ?_⟩
    · intro hEeq
      have hbad : decodeSIWxHeader "SIGBASE58" = .error .malformedEnvelope := rfl
      have hgood : decodeSIWxHeader (String.mk (base64Encode ((jsonStringifyEnvelope (createSIWxMessage c2Payload) "SIGBASE58").data.map Char.toNat))) = .ok (createSIWxMessage c2Payload, "SIGBASE58") := by
        unfold decodeSIWxHeader
        rw [hdec]
        simp [parseEnvelope_stringify]
      rw [hEeq, hbad] at hgood
      exact absurd hgood (by simp)
    · unfold decodeSIWxHeader
      rw [hdec]
      simp [parseEnvelope_stringify]
    · unfold decodeSIWxHeader
      rw [hdec2]
      simp [parseEnvelope_stringify]

/-! ## Request authenticator (fetch wrapper)

`wrapFetchWithSigner` from `packages/client/src/fetch.ts`.  One call of
the returned wrapped fetch is modelled as a pure function of the explicit
state: the session-cache contents, the current time (ms since epoch, as
`Date.now()`), and the request input.  The JS `Date` ISO formatting and
parsing are environment primitives, passed in as an explicit `TimeModel`;
the signer is the `ClientSigner` collaborator with its signing primitive
modelled as a pure function of the payload. -/

/-- The components of a parsed URL that the wrapper reads
(`url.host`, `url.pathname`, `url.search` of `new URL`). -/
structure UrlParts where
  host : String
  pathname : String
  search : String
deriving DecidableEq, Repr

/-- `new URL(input)` for the pieces the wrapper uses: split the scheme at
the first `://`, the host up to the first `/`, `?` or `#`, the pathname
up to `?` or `#` (`"/"` when empty), and the search from `?` (empty when
the query is empty).  Throws (`none`) when there is no scheme or host. -/
def splitSchemeAux : List Char → Option (List Char × List Char)
  | [] => none
  | c :: rest =>
      if [':', '/', '/'].isPrefixOf (c :: rest) then some ([], (c :: rest).drop 3)
      else (splitSchemeAux rest).map (fun p => (c :: p.1, p.2))

def urlParse (s : String) : Option UrlParts :=
  match splitSchemeAux s.data with
  | none => none
  | some (scheme, r) =>
      if scheme = [] then none
      else
        let noFrag := r.takeWhile (fun c => c ≠ '#')
        let host := noFrag.takeWhile (fun c => c ≠ '/' ∧ c ≠ '?')
        let after := noFrag.dropWhile (fun c => c ≠ '/' ∧ c ≠ '?')
        let path := after.takeWhile (fun c => c ≠ '?')
        let query := after.dropWhile (fun c => c ≠ '?')
        if host = [] then none
        else
          some ⟨String.mk host,
                if path = [] then "/" else String.mk path,
                if query = ['?'] then "" else String.mk query⟩

example : urlParse "https://real.test/path?q=1" = some ⟨"real.test", "/path", "?q=1"⟩ := by decide
example : urlParse "https://example.com" = some ⟨"example.com", "/", ""⟩ := by decide
example : urlParse "not a url" = none := by decide

/-- The `ClientSigner` collaborator (`signer.ts`): address, CAIP-2
network, and the signing operation, modelled as a pure function from the
payload to the signature string the wrapper receives. -/
structure MSigner where
  address : String
  network : String
  sign : SIWxPayload → String

/-- The JS `Date` environment: `Date.parse` (`new Date(s)`, `none` for an
invalid date, i.e. `NaN`) and `toISOString` of a ms-since-epoch instant. -/
structure TimeModel where
  parseDate : String → Option Int
  toISO : Int → String

/-- `new Date(exp) > new Date()` of the cache check: an invalid date
(`NaN`) compares `false`. -/
def isFutureDate (tm : TimeModel) (exp : String) (now : Int) : Bool :=
  match tm.parseDate exp with
  | some t => decide (now < t)
  | none => false

/-- The session-cache contents, keyed by signer address. -/
def SessionCache := List (String × SIWxPayload)

/-- `sessionCache.get(signer.address)`. -/
def cacheGet (c : List (String × SIWxPayload)) (k : String) : Option SIWxPayload :=
  (c.find? (fun e => e.1 = k)).map (fun e => e.2)

/-- `sessionCache.set(signer.address, fullPayload)`. -/
def cacheSet (c : List (String × SIWxPayload)) (k : String) (v : SIWxPayload) :
    List (String × SIWxPayload) :=
  (k, v) :: c

/-- `WrapFetchOptions`: the optional `siwxDomain` override and whether a
session cache collaborator is configured. -/
structure WrapOptions where
  siwxDomain : Option String
  hasSessionCache : Bool

/-- Observable outcome of one wrapped-fetch call: the attached
`SIGN-IN-WITH-X` header value, the payload whose message/signature the
header carries, the payloads passed to `signer.signPayload` during the
call, and the cache contents afterwards. -/
structure AuthCallResult where
  siwxHeader : String
  payload : SIWxPayload
  signedPayloads : List SIWxPayload
  cacheAfter : List (String × SIWxPayload)

/-- The fresh payload of `fetch.ts` (cache-miss path, lines 96-128):
`siwxDomain` override or URL host as `domain`; the URL rewritten onto the
override domain (path and query preserved) or the input verbatim as
`uri`; `version "1"`; the signer's network as `chainId`; expiration one
hour from now; no other fields. -/
def buildFreshPayload (tm : TimeModel) (signer : MSigner) (opts : WrapOptions)
    (now : Int) (input : String) (u : UrlParts) : SIWxPayload :=
  let domain := opts.siwxDomain.getD u.host
  let uri :=
    match opts.siwxDomain with
    | some d => "https://" ++ d ++ u.pathname ++ u.search
    | none => input
  ⟨domain, signer.address, none, uri, "1", signer.network,
   none, none, tm.toISO (now + 3600000), none, none, none, none⟩

/-- The cache-miss path of the wrapper: parse the URL (throwing on an
invalid one), build the fresh payload, sign it, encode the header, and
store payload+signature in the cache when one is configured. -/
def freshCall (tm : TimeModel) (signer : MSigner) (opts : WrapOptions)
    (cache : List (String × SIWxPayload)) (now : Int) (input : String) :
    Option AuthCallResult := do
  let u ← urlParse input
  let payload := buildFreshPayload tm signer opts now input u
  let signature := signer.sign payload
  let header ← encodeSIWxHeader (createSIWxMessage payload) signature
  let fullPayload := { payload with signature := some signature }
  let cacheAfter := if opts.hasSessionCache then cacheSet cache signer.address fullPayload else cache
  some ⟨header, payload, [payload], cacheAfter⟩

/-- One call of the fetch function returned by `wrapFetchWithSigner`
(`fetch.ts` lines 83-158), up to the header hand-off to the payment
transport: consult the cache when configured, reuse an unexpired cached
payload's message and signature verbatim, otherwise sign a fresh
payload.  `none` models a thrown exception (invalid URL or `btoa`
failure). -/
def wrapFetchCall (tm : TimeModel) (signer : MSigner) (opts : WrapOptions)
    (cache : List (String × SIWxPayload)) (now : Int) (input : String) :
    Option AuthCallResult :=
  let cached? := if opts.hasSessionCache then cacheGet cache signer.address else none
  match cached? with
  | some cp =>
      if isFutureDate tm cp.expirationTime now then do
        let header ← encodeSIWxHeader (createSIWxMessage cp) (cp.signature.getD "")
        some ⟨header, cp, [], cache⟩
      else freshCall tm signer opts cache now input
  | none => freshCall tm signer opts cache now input

/-- Without a session cache the wrapper always takes the fresh path. -/
theorem wrapFetchCall_noCache (tm : TimeModel) (signer : MSigner) (d : Option String)
    (cache : List (String × SIWxPayload)) (now : Int) (input : String) :
    wrapFetchCall tm signer ⟨d, false⟩ cache now input
      = freshCall tm signer ⟨d, false⟩ cache now input := by
  simp [wrapFetchCall]

/-- A successful fresh call signs exactly the freshly built payload. -/
theorem freshCall_payload (tm : TimeModel) (signer : MSigner) (opts : WrapOptions)
    (cache : List (String × SIWxPayload)) (now : Int) (input : String) (u : UrlParts)
    (r : AuthCallResult) (hu : urlParse input = some u)
    (h : freshCall tm signer opts cache now input = some r) :
    r.payload = buildFreshPayload tm signer opts now input u
    ∧ r.signedPayloads = [r.payload] := by
  unfold freshCall at h
  rw [hu] at h
  simp only [Option.bind_eq_bind, Option.some_bind] at h
  cases henc : encodeSIWxHeader
      (createSIWxMessage (buildFreshPayload tm signer opts now input u))
      (signer.sign (buildFreshPayload tm signer opts now input u)) with
  | none => rw [henc] at h; simp at h
  | some hd =>
      rw [henc] at h
      simp only [Option.bind_eq_bind, Option.some_bind, Option.some.injEq] at h
      subst h
      exact ⟨rfl, rfl⟩

/-- C5: with `siwxDomain` set to `"override.test"`, the fresh payload's
`domain` is the override and its `uri` is the request URL rewritten onto
the override domain with path and query preserved; without the
override, `domain` is the request URL's host and `uri` is the request
input verbatim. -/
theorem wrapFetch_domain_override
    (tm : TimeModel) (signer : MSigner) (cache : List (String × SIWxPayload))
    (now : Int) (input : String) (u : UrlParts) (hu : urlParse input = some u) :
    (∀ r, wrapFetchCall tm signer ⟨some "override.test", false⟩ cache now input = some r →
      r.payload.domain = "override.test"
      ∧ r.payload.uri = "https://override.test" ++ u.pathname ++ u.search)
    ∧ (∀ r, wrapFetchCall tm signer ⟨none, false⟩ cache now input = some r →
      r.payload.domain = u.host ∧ r.payload.uri = input) := by
  constructor
  · intro r h
    rw [wrapFetchCall_noCache] at h
    obtain ⟨hp, _⟩ := freshCall_payload tm signer _ cache now input u r hu h
    rw [hp]
    refine ⟨rfl, ?_⟩
    show "https://" ++ "override.test" ++ u.pathname ++ u.search = _
    rw [show ("https://" ++ "override.test" : String) = "https://override.test" from rfl]
  · intro r h
    rw [wrapFetchCall_noCache] at h
    obtain ⟨hp, _⟩ := freshCall_payload tm signer _ cache now input u r hu h
    rw [hp]
    exact ⟨rfl, rfl⟩

/-- A concrete `Date` environment for witnesses. -/
def tmW : TimeModel := ⟨fun _ => some 1000, fun _ => "2030-01-01T00:00:00.000Z"⟩

/-- A concrete signer for witnesses. -/
def signerW : MSigner := ⟨"0xA", "eip155:1", fun _ => "0xSIG"⟩

theorem wrapFetch_domain_override_witness :
    (urlParse "https://real.test/path?q=1" = some ⟨"real.test", "/path", "?q=1"⟩)
    ∧ ∃ r, wrapFetchCall tmW signerW ⟨some "override.test", false⟩ [] 0 "https://real.test/path?q=1" = some r
        ∧ r.payload.domain = "override.test"
        ∧ r.payload.uri = "https://override.test" ++ "/path" ++ "?q=1" := by
  refine ⟨by decide, ?_⟩
  have hsome : (wrapFetchCall tmW signerW ⟨some "override.test", false⟩ [] 0 "https://real.test/path?q=1").isSome = true := by
    decide
  obtain ⟨r, hr⟩ := Option.isSome_iff_exists.1 hsome
  have hres := (wrapFetch_domain_override tmW signerW [] 0 "https://real.test/path?q=1"
    ⟨"real.test", "/path", "?q=1"⟩ (by decide)).1 r hr
  exact ⟨r, hr, hres.1, hres.2⟩

/-- C10: on a cache hit the emitted header does not depend on the request
at all — two calls against arbitrary different inputs return identical
results, the header is rebuilt solely from the cached payload's message
and signature, nothing is signed, and the cache is untouched: the cached
assertion is replayed unchanged against any resource within the validity
window. -/
theorem wrapFetch_cacheHit_request_independent
    (tm : TimeModel) (signer : MSigner) (dOpt : Option String)
    (cache : List (String × SIWxPayload)) (now : Int) (cp : SIWxPayload) (s : String)
    (hc : cacheGet cache signer.address = some cp)
    (hsig : cp.signature = some s)
    (hfut : isFutureDate tm cp.expirationTime now = true)
    (hm : ∀ c ∈ (createSIWxMessage cp).data, c.toNat < 256)
    (hs : ∀ c ∈ s.data, c.toNat < 256) :
    ∀ input1 input2 : String,
      wrapFetchCall tm signer ⟨dOpt, true⟩ cache now input1
        = wrapFetchCall tm signer ⟨dOpt, true⟩ cache now input2
      ∧ ∃ r, wrapFetchCall tm signer ⟨dOpt, true⟩ cache now input1 = some r
          ∧ encodeSIWxHeader (createSIWxMessage cp) s = some r.siwxHeader
          ∧ r.signedPayloads = [] ∧ r.payload = cp ∧ r.cacheAfter = cache := by
  obtain ⟨henc, _⟩ := atobJS_btoaJS (jsonStringifyEnvelope (createSIWxMessage cp) s)
    (jsonStringifyEnvelope_latin1 _ _ hm hs)
  have hkey : ∀ input, wrapFetchCall tm signer ⟨dOpt, true⟩ cache now input
      = some ⟨String.mk (base64Encode ((jsonStringifyEnvelope (createSIWxMessage cp) s).data.map Char.toNat)),
              cp, [], cache⟩ := by
    intro input
    simp [wrapFetchCall, hc, hfut, hsig, encodeSIWxHeader, henc]
  intro input1 input2
  refine ⟨by rw [hkey, hkey], _, hkey input1, henc, rfl, rfl, rfl⟩

/-- The cached payload used by the C10 and C4 witnesses. -/
def cpW : SIWxPayload :=
  ⟨"api.test", "0xA", none, "https://api.test/r", "1", "eip155:1",
   none, none, "2030-01-01T00:00:00.000Z", none, none, none, some "0xSIG"⟩

theorem wrapFetch_cacheHit_request_independent_witness :
    (cacheGet [("0xA", cpW)] signerW.address = some cpW
      ∧ cpW.signature = some "0xSIG"
      ∧ isFutureDate tmW cpW.expirationTime 0 = true)
    ∧ (wrapFetchCall tmW signerW ⟨none, true⟩ [("0xA", cpW)] 0 "https://a.test/x"
        = wrapFetchCall tmW signerW ⟨none, true⟩ [("0xA", cpW)] 0 "https://b.test/y"
      ∧ ∃ r, wrapFetchCall tmW signerW ⟨none, true⟩ [("0xA", cpW)] 0 "https://a.test/x" = some r
          ∧ encodeSIWxHeader (createSIWxMessage cpW) "0xSIG" = some r.siwxHeader
          ∧ r.signedPayloads = [] ∧ r.payload = cpW ∧ r.cacheAfter = [("0xA", cpW)]) :=
  ⟨⟨by decide, rfl, by decide⟩,
   wrapFetch_cacheHit_request_independent tmW signerW none [("0xA", cpW)] 0 cpW "0xSIG"
     (by decide) rfl (by decide) (by decide) (by decide)
     "https://a.test/x" "https://b.test/y"⟩

/-! ### Header inequality after expiration (C4)

Two `SIGN-IN-WITH-X` headers differ when the canonical messages inside
them differ; canonical messages differ when their line lists differ,
provided no field smuggles a `\n` into a line.  These lemmas set that
up. -/

/-- A string with no newline character (true of every real payload
field: domains, URLs, addresses, CAIP-2 ids, ISO timestamps). -/
abbrev noNL (s : String) : Prop := '\n' ∉ s.data

/-- `noNL` for an optional field. -/
def noNLopt : Option String → Prop
  | none => True
  | some s => noNL s

/-- All fields of a payload are newline-free. -/
def noNLPayload (p : SIWxPayload) : Prop :=
  noNL p.domain ∧ noNL p.address ∧ noNLopt p.statement ∧ noNL p.uri ∧ noNL p.version
  ∧ noNL p.chainId ∧ noNLopt p.nonce ∧ noNLopt p.issuedAt ∧ noNL p.expirationTime
  ∧ noNLopt p.notBefore ∧ noNLopt p.requestId
  ∧ (match p.resources with | none => True | some rs => ∀ r ∈ rs, noNL r)

theorem noNLPayload_of_none (d a u v c e : String) (sig : Option String)
    (hd : noNL d) (ha : noNL a) (hu : noNL u) (hv : noNL v) (hc : noNL c) (he : noNL e) :
    noNLPayload ⟨d, a, none, u, v, c, none, none, e, none, none, none, sig⟩ :=
  ⟨hd, ha, trivial, hu, hv, hc, trivial, trivial, he, trivial, trivial, trivial⟩

theorem noNL_append {a b : String} (ha : noNL a) (hb : noNL b) : noNL (a ++ b) := by
  intro hm
  rw [string_data_append] at hm
  rcases List.mem_append.1 hm with h | h
  · exact ha h
  · exact hb h

/-- Cancelling around the first newline. -/
theorem append_cons_nl_cancel :
    ∀ (l1 l2 r1 r2 : List Char), '\n' ∉ l1 → '\n' ∉ l2 →
      l1 ++ '\n' :: r1 = l2 ++ '\n' :: r2 → l1 = l2 ∧ r1 = r2 := by
  intro l1
  induction l1 with
  | nil =>
      intro l2 r1 r2 _ h2 heq
      cases l2 with
      | nil => simpa using heq
      | cons d l2' =>
          injection heq with hd _
          exact absurd (hd ▸ List.mem_cons_self d l2') h2
  | cons c l1' ih =>
      intro l2 r1 r2 h1 h2 heq
      cases l2 with
      | nil =>
          injection heq with hd _
          exact absurd (hd ▸ List.mem_cons_self c l1') h1
      | cons d l2' =>
          injection heq with hd htl
          subst hd
          obtain ⟨ha, hb⟩ := ih l2' r1 r2
            (fun hm => h1 (List.mem_cons_of_mem c hm))
            (fun hm => h2 (List.mem_cons_of_mem c hm)) htl
          exact ⟨by rw [ha], hb⟩

theorem string_append_nl_cancel {a b x y : String} (ha : noNL a) (hb : noNL b)
    (h : a ++ "\n" ++ x = b ++ "\n" ++ y) : a = b ∧ x = y := by
  have hd : a.data ++ '\n' :: x.data = b.data ++ '\n' :: y.data := by
    have h2 := congrArg String.data h
    simpa [string_data_append] using h2
  obtain ⟨h1, h2⟩ := append_cons_nl_cancel _ _ _ _ ha hb hd
  exact ⟨string_data_injective h1, string_data_injective h2⟩

/-- `join("\n")` is injective on nonempty lists of newline-free lines. -/
theorem joinLines_inj : ∀ (l1 l2 : List String),
    (∀ x ∈ l1, noNL x) → (∀ x ∈ l2, noNL x) → l1 ≠ [] → l2 ≠ [] →
    joinLines l1 = joinLines l2 → l1 = l2 := by
  intro l1
  induction l1 with
  | nil => intro l2 _ _ hne; exact absurd rfl hne
  | cons a l1' ih =>
      intro l2 h1 h2 _ hne2 heq
      cases l2 with
      | nil => exact absurd rfl hne2
      | cons b l2' =>
          cases l1' with
          | nil =>
              cases l2' with
              | nil =>
                  have : a = b := heq
                  rw [this]
              | cons b2 l2'' =>
                  exfalso
                  have heq' : a = b ++ "\n" ++ joinLines (b2 :: l2'') := heq
                  apply h1 a (List.mem_cons_self a [])
                  rw [heq', string_data_append, string_data_append]
                  simp
          | cons a2 l1'' =>
              cases l2' with
              | nil =>
                  exfalso
                  have heq' : a ++ "\n" ++ joinLines (a2 :: l1'') = b := heq
                  apply h2 b (List.mem_cons_self b [])
                  rw [← heq', string_data_append, string_data_append]
                  simp
              | cons b2 l2'' =>
                  have heq' : a ++ "\n" ++ joinLines (a2 :: l1'')
                      = b ++ "\n" ++ joinLines (b2 :: l2'') := heq
                  obtain ⟨hab, hrest⟩ := string_append_nl_cancel
                    (h1 a (List.mem_cons_self a _)) (h2 b (List.mem_cons_self b _)) heq'
                  have htail := ih (b2 :: l2'')
                    (fun x hx => h1 x (List.mem_cons_of_mem a hx))
                    (fun x hx => h2 x (List.mem_cons_of_mem b hx))
                    (by simp) (by simp) hrest
                  rw [hab, htail]

/-- `toUpper` cannot create a newline. -/
theorem toUpper_ne_nl {c : Char} (h : c ≠ '\n') : c.toUpper ≠ '\n' := by
  intro habs
  by_cases hr : 97 ≤ c.toNat ∧ c.toNat ≤ 122
  · have hup : Char.ofNat (c.toNat - 32) = '\n' := by
      simpa [Char.toUpper, hr] using habs
    have hb : ∀ m, m < 91 → 65 ≤ m → Char.ofNat m ≠ '\n' := by decide
    exact hb (c.toNat - 32) (by omega) (by omega) hup
  · have : c = '\n' := by simpa [Char.toUpper, hr] using habs
    exact h this

theorem capitalizeJS_noNL {s : String} (h : noNL s) : noNL (capitalizeJS s) := by
  unfold capitalizeJS
  cases hs : s.data with
  | nil => intro hm; simp at hm
  | cons c0 cs =>
      intro hm
      rw [string_data_mk] at hm
      rcases List.mem_cons.1 hm with heq | hmem
      · have hc0 : c0 ≠ '\n' := by
          intro habs
          exact h (hs ▸ (habs ▸ List.mem_cons_self c0 cs))
        exact toUpper_ne_nl hc0 heq.symm
      · exact h (hs ▸ List.mem_cons_of_mem c0 hmem)

theorem getChainName_noNL {c : String} (hc : noNL c) : noNL (getChainName c) := by
  unfold getChainName
  split_ifs
  · intro hm; simp at hm
  · intro hm; simp at hm
  · apply capitalizeJS_noNL
    intro hm
    rw [string_data_mk] at hm
    exact hc ((List.takeWhile_prefix _).subset hm)

theorem mem_optLines {x : String} {o : Option String} {f : String → List String}
    (h : x ∈ optLines o f) : ∃ s, o = some s ∧ s ≠ "" ∧ x ∈ f s := by
  cases o with
  | none => simp [optLines] at h
  | some s =>
      by_cases hs : s = ""
      · simp [optLines, hs] at h
      · exact ⟨s, rfl, hs, by simpa [optLines, hs] using h⟩

/-- Every line of a newline-free payload's message is newline-free. -/
theorem siwxLines_noNL {p : SIWxPayload} (hp : noNLPayload p) :
    ∀ x ∈ siwxLines p, noNL x := by
  obtain ⟨hd, ha, hst, hu, hv, hc, hn, hi, he, hnb, hrq, hres⟩ := hp
  have hlit : ∀ lit : String, (∀ ch ∈ lit.data, ch ≠ '\n') → noNL lit := by
    intro lit hl hm
    exact hl '\n' hm rfl
  intro x hx
  unfold siwxLines at hx
  rcases List.mem_append.1 hx with hx | hx
  swap
  · rcases hres' : p.resources with - | rs
    · rw [hres', resourceLines] at hx
      simp at hx
    · rw [hres', resourceLines] at hx
      rcases hlen : rs.length with - | k
      · simp [hlen] at hx
      · rw [hlen] at hx
        simp only [Nat.succ_pos, if_pos] at hx
        rcases List.mem_cons.1 hx with rfl | hx
        · intro hm; revert hm; decide
        · obtain ⟨r, hr, rfl⟩ := List.mem_map.1 hx
          have hrnl : noNL r := by
            rw [hres'] at hres
            exact hres r hr
          exact noNL_append (by intro hm; revert hm; decide) hrnl
  rcases List.mem_append.1 hx with hx | hx
  swap
  · obtain ⟨s, hso, -, hxs⟩ := mem_optLines hx
    rw [hso] at hrq
    rcases List.mem_cons.1 hxs with rfl | hxs
    · exact noNL_append (by intro hm; revert hm; decide) hrq
    · simp at hxs
  rcases List.mem_append.1 hx with hx | hx
  swap
  · obtain ⟨s, hso, -, hxs⟩ := mem_optLines hx
    rw [hso] at hnb
    rcases List.mem_cons.1 hxs with rfl | hxs
    · exact noNL_append (by intro hm; revert hm; decide) hnb
    · simp at hxs
  rcases List.mem_append.1 hx with hx | hx
  swap
  · rcases List.mem_cons.1 hx with rfl | hx
    · exact noNL_append (by intro hm; revert hm; decide) he
    · simp at hx
  rcases List.mem_append.1 hx with hx | hx
  swap
  · obtain ⟨s, hso, -, hxs⟩ := mem_optLines hx
    rw [hso] at hi
    rcases List.mem_cons.1 hxs with rfl | hxs
    · exact noNL_append (by intro hm; revert hm; decide) hi
    · simp at hxs
  rcases List.mem_append.1 hx with hx | hx
  swap
  · obtain ⟨s, hso, -, hxs⟩ := mem_optLines hx
    rw [hso] at hn
    rcases List.mem_cons.1 hxs with rfl | hxs
    · exact noNL_append (by intro hm; revert hm; decide) hn
    · simp at hxs
  rcases List.mem_append.1 hx with hx | hx
  swap
  · rcases List.mem_cons.1 hx with rfl | hx
    · exact noNL_append (by intro hm; revert hm; decide) hu
    rcases List.mem_cons.1 hx with rfl | hx
    · exact noNL_append (by intro hm; revert hm; decide) hv
    rcases List.mem_cons.1 hx with rfl | hx
    · exact noNL_append (by intro hm; revert hm; decide) hc
    · simp at hx
  rcases List.mem_append.1 hx with hx | hx
  swap
  · obtain ⟨s, hso, -, hxs⟩ := mem_optLines hx
    rw [hso] at hst
    rcases List.mem_cons.1 hxs with rfl | hxs
    · exact hst
    rcases List.mem_cons.1 hxs with rfl | hxs
    · intro hm; simp at hm
    · simp at hxs
  · rcases List.mem_cons.1 hx with rfl | hx
    · exact noNL_append (noNL_append (noNL_append hd (by intro hm; revert hm; decide))
        (getChainName_noNL hc)) (by intro hm; revert hm; decide)
    rcases List.mem_cons.1 hx with rfl | hx
    · exact ha
    rcases List.mem_cons.1 hx with rfl | hx
    · intro hm; simp at hm
    · simp at hx

/-- Messages of two newline-free payloads differ when the second has the
fresh-payload shape (no optional fields) and the expiration timestamps
differ: the expiration line cannot be forged by any other field. -/
theorem createSIWxMessage_ne_fresh
    (p q : SIWxPayload)
    (hp : noNLPayload p) (hq : noNLPayload q)
    (hq1 : q.statement = none) (hq2 : q.nonce = none) (hq3 : q.issuedAt = none)
    (hq4 : q.notBefore = none) (hq5 : q.requestId = none) (hq6 : q.resources = none)
    (hne : p.expirationTime ≠ q.expirationTime) :
    createSIWxMessage p ≠ createSIWxMessage q := by
  intro heq
  have hlines := joinLines_inj _ _ (siwxLines_noNL hp) (siwxLines_noNL hq)
    (by simp [siwxLines]) (by simp [siwxLines]) heq
  have hqlines : siwxLines q
      = [q.domain ++ " wants you to sign in with your " ++ getChainName q.chainId ++ " account:",
         q.address, "", "URI: " ++ q.uri, "Version: " ++ q.version, "Chain ID: " ++ q.chainId,
         "Expiration Time: " ++ q.expirationTime] := by
    simp [siwxLines, optLines, resourceLines, hq1, hq2, hq3, hq4, hq5, hq6]
  rw [hqlines] at hlines
  have hlen := congrArg List.length hlines
  simp only [siwxLines, List.length_append, List.length_cons, List.length_nil] at hlen
  have e1 : optLines p.statement (fun s => [s, ""]) = [] :=
    List.length_eq_zero.1 (by omega)
  have e2 : optLines p.nonce (fun s => ["Nonce: " ++ s]) = [] :=
    List.length_eq_zero.1 (by omega)
  have e3 : optLines p.issuedAt (fun s => ["Issued At: " ++ s]) = [] :=
    List.length_eq_zero.1 (by omega)
  have e4 : optLines p.notBefore (fun s => ["Not Before: " ++ s]) = [] :=
    List.length_eq_zero.1 (by omega)
  have e5 : optLines p.requestId (fun s => ["Request ID: " ++ s]) = [] :=
    List.length_eq_zero.1 (by omega)
  have e6 : resourceLines p.resources = [] :=
    List.length_eq_zero.1 (by omega)
  unfold siwxLines at hlines
  rw [e1, e2, e3, e4, e5, e6] at hlines
  simp only [List.append_nil, List.nil_append, List.cons_append, List.singleton_append,
             List.cons.injEq, and_true] at hlines
  obtain ⟨-, -, -, -, -, -, hexp⟩ := hlines
  apply hne
  have hdata := congrArg String.data hexp
  rw [string_data_append, string_data_append] at hdata
  exact string_data_injective (List.append_cancel_left hdata)

/-- Shared: the header built from latin-1 message and signature exists and
decodes back to them. -/
theorem decodeSIWxHeader_encode {m s : String}
    (hm : ∀ c ∈ m.data, c.toNat < 256) (hs : ∀ c ∈ s.data, c.toNat < 256) :
    encodeSIWxHeader m s
      = some (String.mk (base64Encode ((jsonStringifyEnvelope m s).data.map Char.toNat)))
    ∧ decodeSIWxHeader (String.mk (base64Encode ((jsonStringifyEnvelope m s).data.map Char.toNat)))
      = .ok (m, s) := by
  obtain ⟨henc, hdec⟩ := atobJS_btoaJS (jsonStringifyEnvelope m s)
    (jsonStringifyEnvelope_latin1 m s hm hs)
  refine ⟨henc, ?_⟩
  unfold decodeSIWxHeader
  rw [hdec]
  simp [parseEnvelope_stringify]

/-- C4: with a session cache holding a payload for the signer's address
whose expiration is strictly in the future, calls within the validity
window emit byte-identical headers, sign nothing, and leave the cache
untouched; once the expiration is no longer in the future, the next call
signs exactly one fresh payload and emits a different header value. -/
theorem wrapFetch_session_cache_idempotence
    (tm : TimeModel) (signer : MSigner) (dOpt : Option String)
    (cache : List (String × SIWxPayload)) (cp : SIWxPayload) (s : String)
    (t now1 now2 now3 : Int) (input1 input2 input3 : String) (u3 : UrlParts)
    (hc : cacheGet cache signer.address = some cp)
    (hsig : cp.signature = some s)
    (hpt : tm.parseDate cp.expirationTime = some t)
    (h1 : now1 < t) (h2 : now2 < t) (h3 : t ≤ now3)
    (hu3 : urlParse input3 = some u3)
    (hm : ∀ c ∈ (createSIWxMessage cp).data, c.toNat < 256)
    (hs : ∀ c ∈ s.data, c.toNat < 256)
    (hm3 : ∀ c ∈ (createSIWxMessage (buildFreshPayload tm signer ⟨dOpt, true⟩ now3 input3 u3)).data,
      c.toNat < 256)
    (hs3 : ∀ c ∈ (signer.sign (buildFreshPayload tm signer ⟨dOpt, true⟩ now3 input3 u3)).data,
      c.toNat < 256)
    (hpnl : noNLPayload cp)
    (hqnl : noNLPayload (buildFreshPayload tm signer ⟨dOpt, true⟩ now3 input3 u3))
    (hiso : ∀ x : Int, tm.parseDate (tm.toISO x) = some x) :
    ∃ hdr,
      wrapFetchCall tm signer ⟨dOpt, true⟩ cache now1 input1 = some ⟨hdr, cp, [], cache⟩
      ∧ wrapFetchCall tm signer ⟨dOpt, true⟩ cache now2 input2 = some ⟨hdr, cp, [], cache⟩
      ∧ ∃ r3, wrapFetchCall tm signer ⟨dOpt, true⟩ cache now3 input3 = some r3
          ∧ r3.signedPayloads = [buildFreshPayload tm signer ⟨dOpt, true⟩ now3 input3 u3]
          ∧ r3.siwxHeader ≠ hdr := by
  obtain ⟨henc, hdec⟩ := decodeSIWxHeader_encode hm hs
  obtain ⟨henc3, hdec3⟩ := decodeSIWxHeader_encode hm3 hs3
  have hfut1 : isFutureDate tm cp.expirationTime now1 = true := by
    simp [isFutureDate, hpt]
    exact h1
  have hfut2 : isFutureDate tm cp.expirationTime now2 = true := by
    simp [isFutureDate, hpt]
    exact h2
  have hfut3 : isFutureDate tm cp.expirationTime now3 = false := by
    simp [isFutureDate, hpt]
    omega
  refine ⟨String.mk (base64Encode ((jsonStringifyEnvelope (createSIWxMessage cp) s).data.map Char.toNat)),
    ?_, ?_, ?_⟩
  · simp [wrapFetchCall, hc, hfut1, hsig, henc]
  · simp [wrapFetchCall, hc, hfut2, hsig, henc]
  · have hred : wrapFetchCall tm signer ⟨dOpt, true⟩ cache now3 input3
        = freshCall tm signer ⟨dOpt, true⟩ cache now3 input3 := by
      simp [wrapFetchCall, hc, hfut3]
    have hcall : freshCall tm signer ⟨dOpt, true⟩ cache now3 input3
        = some ⟨String.mk (base64Encode ((jsonStringifyEnvelope
              (createSIWxMessage (buildFreshPayload tm signer ⟨dOpt, true⟩ now3 input3 u3))
              (signer.sign (buildFreshPayload tm signer ⟨dOpt, true⟩ now3 input3 u3))).data.map Char.toNat)),
            buildFreshPayload tm signer ⟨dOpt, true⟩ now3 input3 u3,
            [buildFreshPayload tm signer ⟨dOpt, true⟩ now3 input3 u3],
            cacheSet cache signer.address
              { buildFreshPayload tm signer ⟨dOpt, true⟩ now3 input3 u3 with
                signature := some (signer.sign (buildFreshPayload tm signer ⟨dOpt, true⟩ now3 input3 u3)) }⟩ := by
      unfold freshCall
      rw [hu3]
      simp only [Option.bind_eq_bind, Option.some_bind, henc3]
      rfl
    refine ⟨_, hred.trans hcall, rfl, ?_⟩
    intro habs
    have habs' : String.mk (base64Encode ((jsonStringifyEnvelope
          (createSIWxMessage (buildFreshPayload tm signer ⟨dOpt, true⟩ now3 input3 u3))
          (signer.sign (buildFreshPayload tm signer ⟨dOpt, true⟩ now3 input3 u3))).data.map Char.toNat))
        = String.mk (base64Encode ((jsonStringifyEnvelope (createSIWxMessage cp) s).data.map Char.toNat)) := habs
    have hdec3' := hdec3
    rw [habs'] at hdec3'
    have hcomb := hdec.symm.trans hdec3'
    have hpair : (createSIWxMessage cp, s)
        = (createSIWxMessage (buildFreshPayload tm signer ⟨dOpt, true⟩ now3 input3 u3),
           signer.sign (buildFreshPayload tm signer ⟨dOpt, true⟩ now3 input3 u3)) := by
      injection hcomb
    have hmsgeq : createSIWxMessage cp
        = createSIWxMessage (buildFreshPayload tm signer ⟨dOpt, true⟩ now3 input3 u3) :=
      congrArg Prod.fst hpair
    have hneexp : cp.expirationTime
        ≠ (buildFreshPayload tm signer ⟨dOpt, true⟩ now3 input3 u3).expirationTime := by
      intro he
      have hpt' := hpt
      rw [he] at hpt'
      rw [show (buildFreshPayload tm signer ⟨dOpt, true⟩ now3 input3 u3).expirationTime
          = tm.toISO (now3 + 3600000) from rfl, hiso] at hpt'
      have : now3 + 3600000 = t := by
        exact Option.some.inj hpt'
      omega
    exact createSIWxMessage_ne_fresh cp (buildFreshPayload tm signer ⟨dOpt, true⟩ now3 input3 u3)
      hpnl hqnl rfl rfl rfl rfl rfl rfl hneexp hmsgeq

/-! A concrete `TimeModel` witnessing `parseDate (toISO x) = x`: timestamps
are rendered as a sign and little-endian binary digits. -/

def natToBitsAux : Nat → Nat → List Char
  | 0, _ => []
  | fuel + 1, n =>
      if n = 0 then [] else (if n % 2 = 1 then '1' else '0') :: natToBitsAux fuel (n / 2)

def natToBits (n : Nat) : List Char := natToBitsAux n n

def bitsToNat : List Char → Option Nat
  | [] => some 0
  | c :: rest => do
      let v ← bitsToNat rest
      if c = '1' then some (1 + 2 * v) else if c = '0' then some (2 * v) else none

def encIntTime (x : Int) : String :=
  match x with
  | .ofNat n => String.mk ('+' :: natToBits n)
  | .negSucc n => String.mk ('-' :: natToBits n)

def decIntTime (s : String) : Option Int :=
  match s.data with
  | c :: rest =>
      if c = '+' then (bitsToNat rest).map Int.ofNat
      else if c = '-' then (bitsToNat rest).map Int.negSucc
      else none
  | [] => none

theorem bitsToNat_natToBitsAux : ∀ (fuel n : Nat), n ≤ fuel →
    bitsToNat (natToBitsAux fuel n) = some n := by
  intro fuel
  induction fuel with
  | zero =>
      intro n hn
      have : n = 0 := by omega
      subst this
      rfl
  | succ f ih =>
      intro n hn
      by_cases h0 : n = 0
      · subst h0; rfl
      · rw [natToBitsAux, if_neg h0]
        by_cases hb : n % 2 = 1
        · rw [if_pos hb]
          simp [bitsToNat, ih (n / 2) (by omega)]
          omega
        · rw [if_neg hb]
          simp [bitsToNat, ih (n / 2) (by omega)]
          omega

theorem decIntTime_encIntTime : ∀ x : Int, decIntTime (encIntTime x) = some x := by
  intro x
  cases x with
  | ofNat n =>
      simp [encIntTime, decIntTime, string_data_mk, natToBits,
            bitsToNat_natToBitsAux n n (Nat.le_refl n)]
  | negSucc n =>
      simp [encIntTime, decIntTime, string_data_mk, natToBits,
            bitsToNat_natToBitsAux n n (Nat.le_refl n)]

/-- The binary-timestamp `Date` environment for the C4 witness. -/
def tmC4 : TimeModel := ⟨decIntTime, encIntTime⟩

/-- The cached payload of the C4 witness. -/
def cpC4 : SIWxPayload :=
  ⟨"api.test", "0xA", none, "https://api.test/r", "1", "eip155:1",
   none, none, encIntTime 2000, none, none, none, some "0xSIG"⟩

theorem wrapFetch_session_cache_idempotence_witness :
    (cacheGet [("0xA", cpC4)] signerW.address = some cpC4
      ∧ tmC4.parseDate cpC4.expirationTime = some 2000
      ∧ ((0 : Int) < 2000 ∧ (1 : Int) < 2000 ∧ (2000 : Int) ≤ 2500)
      ∧ urlParse "https://api.test/r?x=2" = some ⟨"api.test", "/r", "?x=2"⟩)
    ∧ ∃ hdr,
      wrapFetchCall tmC4 signerW ⟨none, true⟩ [("0xA", cpC4)] 0 "https://a.test/1"
        = some ⟨hdr, cpC4, [], [("0xA", cpC4)]⟩
      ∧ wrapFetchCall tmC4 signerW ⟨none, true⟩ [("0xA", cpC4)] 1 "https://b.test/2"
        = some ⟨hdr, cpC4, [], [("0xA", cpC4)]⟩
      ∧ ∃ r3, wrapFetchCall tmC4 signerW ⟨none, true⟩ [("0xA", cpC4)] 2500 "https://api.test/r?x=2"
          = some r3
          ∧ r3.signedPayloads
            = [buildFreshPayload tmC4 signerW ⟨none, true⟩ 2500 "https://api.test/r?x=2"
                ⟨"api.test", "/r", "?x=2"⟩]
          ∧ r3.siwxHeader ≠ hdr :=
  ⟨⟨by decide, by decide, ⟨by decide, by decide, by decide⟩, by decide⟩,
   wrapFetch_session_cache_idempotence tmC4 signerW none [("0xA", cpC4)] cpC4 "0xSIG"
     2000 0 1 2500 "https://a.test/1" "https://b.test/2" "https://api.test/r?x=2"
     ⟨"api.test", "/r", "?x=2"⟩
     (by decide) rfl (by decide) (by decide) (by decide) (by decide) (by decide)
     (by decide) (by decide) (by decide) (by decide)
     (noNLPayload_of_none _ _ _ _ _ _ _ (by decide) (by decide) (by decide) (by decide)
       (by decide) (by decide))
     ⟨by decide, by decide, trivial, by decide, by decide, by decide, trivial, trivial,
      by decide, trivial, trivial, trivial⟩
     decIntTime_encIntTime⟩

/-! ## Typed API client

`AimoClient.sessionBalance`, `AimoClient.chatCompletions` and
`AimoClient.handleErrorResponse` from `packages/client/src/api.ts`.
JSON values are modelled by an inductive (numbers restricted to
integers; the claims do not depend on numeric semantics); a response is
its status, status text, and the result of `response.json()` (`none`
when the body is not valid JSON, so `json()` rejects). -/

inductive Json where
  | null : Json
  | bool : Bool → Json
  | num : Int → Json
  | str : String → Json
  | arr : List Json → Json
  | obj : List (String × Json) → Json

/-- JS property access `body.k` (undefined — `none` — on non-objects or
missing keys). -/
def jsonLookup (j : Json) (k : String) : Option Json :=
  match j with
  | .obj fields => (fields.find? (fun e => e.1 = k)).map (fun e => e.2)
  | _ => none

/-- JS truthiness of a JSON value. -/
def jsTruthy : Json → Bool
  | .null => false
  | .bool b => b
  | .num n => decide (n ≠ 0)
  | .str s => decide (s ≠ "")
  | .arr _ => true
  | .obj _ => true

mutual

/-- JS `String(v)` coercion as used by the template literal. -/
def jsToString : Json → String
  | .null => "null"
  | .bool b => if b then "true" else "false"
  | .num n => toString n
  | .str s => s
  | .arr l => jsToStringArr l
  | .obj _ => "[object Object]"

def jsToStringArr : List Json → String
  | [] => ""
  | [x] => jsToString x
  | x :: xs => jsToString x ++ "," ++ jsToStringArr xs

end

mutual

/-- `JSON.stringify` of a JSON value. -/
def jsonStringifyJson : Json → String
  | .null => "null"
  | .bool b => if b then "true" else "false"
  | .num n => toString n
  | .str s => jsonQuote s
  | .arr l => "[" ++ jsonStringifyList l ++ "]"
  | .obj fs => "\x7b" ++ jsonStringifyFields fs ++ "\x7d"

def jsonStringifyList : List Json → String
  | [] => ""
  | [x] => jsonStringifyJson x
  | x :: xs => jsonStringifyJson x ++ "," ++ jsonStringifyList xs

def jsonStringifyFields : List (String × Json) → String
  | [] => ""
  | [(k, v)] => jsonQuote k ++ ":" ++ jsonStringifyJson v
  | (k, v) :: xs => jsonQuote k ++ ":" ++ jsonStringifyJson v ++ "," ++ jsonStringifyFields xs

end

/-- An HTTP response as the typed client observes it. -/
structure MResponse where
  status : Nat
  statusText : String
  jsonBody : Option Json

/-- `response.ok`: status in the 2xx range. -/
def responseOk (r : MResponse) : Bool := decide (200 ≤ r.status ∧ r.status ≤ 299)

/-- `AimoClient.handleErrorResponse`: the message of the thrown `Error` —
status and status text, plus ` - ` and the JSON body's `error` field
(`String(v)` when truthy) or the serialized body, when the body parses
as JSON; nothing more when it does not. -/
def handleErrorResponse (r : MResponse) : String :=
  match r.jsonBody with
  | none => "API request failed: " ++ toString r.status ++ " " ++ r.statusText
  | some body =>
      "API request failed: " ++ toString r.status ++ " " ++ r.statusText ++ " - " ++
        (match jsonLookup body "error" with
         | some v => if jsTruthy v then jsToString v else jsonStringifyJson body
         | none => jsonStringifyJson body)

/-- `AimoClient.sessionBalance`: non-2xx throws `handleErrorResponse`'s
message; 2xx returns `response.json()` as-is (a rejected `json()`
throws a `SyntaxError`).  No field validation is performed. -/
def sessionBalance (r : MResponse) : Except String Json :=
  if responseOk r then
    match r.jsonBody with
    | some j => .ok j
    | none => .error "SyntaxError: body is not JSON"
  else .error (handleErrorResponse r)

/-- `AimoClient.chatCompletions`: a POST through the injected fetch whose
response is returned raw, whatever its status. -/
def chatCompletions (transport : String → MResponse) (url : String) : MResponse :=
  transport url

/-- C9 counterexample: a 2xx response whose JSON body is the empty object
is returned as-is by `sessionBalance` even though it has none of the
three documented fields — the claimed presence validation does not
exist. -/
theorem sessionBalance_no_validation_counterexample :
    sessionBalance ⟨200, "OK", some (.obj [])⟩ = .ok (.obj [])
    ∧ jsonLookup (.obj []) "caip_account_id" = none
    ∧ jsonLookup (.obj []) "balance_micro_usdc" = none
    ∧ jsonLookup (.obj []) "balance_usd" = none :=
  ⟨rfl, rfl, rfl, rfl⟩

/-- C9 (amended): on non-2xx, `sessionBalance` throws an error embedding
the status and status text, plus the JSON error body's truthy `error`
field (or the serialized body when `error` is absent), and nothing more
when the body is not JSON; on 2xx it returns the parsed JSON body
without validating any fields; `chatCompletions` never throws on
non-2xx and returns the raw response. -/
theorem sessionBalance_error_handling :
    (∀ (r : MResponse) (body : Json) (e : String), responseOk r = false →
        r.jsonBody = some body → jsonLookup body "error" = some (.str e) → e ≠ "" →
        sessionBalance r = .error ("API request failed: " ++ toString r.status ++ " "
          ++ r.statusText ++ " - " ++ e))
    ∧ (∀ (r : MResponse) (body : Json), responseOk r = false →
        r.jsonBody = some body → jsonLookup body "error" = none →
        sessionBalance r = .error ("API request failed: " ++ toString r.status ++ " "
          ++ r.statusText ++ " - " ++ jsonStringifyJson body))
    ∧ (∀ r : MResponse, responseOk r = false → r.jsonBody = none →
        sessionBalance r = .error ("API request failed: " ++ toString r.status ++ " "
          ++ r.statusText))
    ∧ (∀ (r : MResponse) (j : Json), responseOk r = true → r.jsonBody = some j →
        sessionBalance r = .ok j)
    ∧ (∀ (transport : String → MResponse) (url : String),
        chatCompletions transport url = transport url) := by
  refine ⟨?_, ?_, ?_, ?_, fun _ _ => rfl⟩
  · intro r body e hok hbody herr hne
    simp [sessionBalance, hok, handleErrorResponse, hbody, herr, jsTruthy, jsToString, hne]
  · intro r body hok hbody herr
    simp [sessionBalance, hok, handleErrorResponse, hbody, herr]
  · intro r hok hbody
    simp [sessionBalance, hok, handleErrorResponse, hbody]
  · intro r j hok hbody
    simp [sessionBalance, hok, hbody]

theorem sessionBalance_error_handling_witness :
    (responseOk ⟨402, "Payment Required", some (.obj [("error", .str "insufficient balance")])⟩ = false
      ∧ jsonLookup (.obj [("error", .str "insufficient balance")]) "error"
        = some (.str "insufficient balance")
      ∧ ("insufficient balance" : String) ≠ "")
    ∧ sessionBalance ⟨402, "Payment Required", some (.obj [("error", .str "insufficient balance")])⟩
      = .error "API request failed: 402 Payment Required - insufficient balance" :=
  ⟨⟨by decide, rfl, by decide⟩,
   sessionBalance_error_handling.1
     ⟨402, "Payment Required", some (.obj [("error", .str "insufficient balance")])⟩
     (.obj [("error", .str "insufficient balance")]) "insufficient balance"
     (by decide) rfl rfl (by decide)⟩



